import Mathlib

/-!
Shallow embedding of `build-standalone.py`: a build utility that reads
`dist/index.html`, inlines every matched stylesheet link whose target file
exists, inlines the first matched script tag whose target file exists using a
raw-byte splice, writes the result to two fixed destinations and prints the
artifact size; if no script is inlined it prints an error line instead.

Documents are lists of characters (Python `str`), file contents are lists of
natural numbers below 256 (Python `bytes`).  The filesystem is an association
list from path strings to byte contents; writability of output paths is a
boolean predicate.  Python's `re.finditer` on the two concrete patterns of the
script is embedded by a backtracking matcher with Python's leftmost, greedy,
non-overlapping semantics.
-/

set_option maxRecDepth 10000

abbrev Byte := Nat

/-- Filesystem for reads: association list from paths to raw byte contents.
`os.path.exists` and `open(..., 'rb')` both consult this map. -/
abbrev FS := List (String × List Byte)

def FS.read : FS → String → Option (List Byte)
  | [], _ => none
  | (q, bs) :: rest, p => if q = p then some bs else FS.read rest p

/-- Regex atoms sufficient for the two patterns of the script:
literal text, greedy `[^c]+`, greedy `[^c]*`, and the bounds of group 1. -/
inductive Tok where
  | lit : List Char → Tok
  | plusNot : Char → Tok
  | starNot : Char → Tok
  | openG : Tok
  | closeG : Tok
deriving DecidableEq

/-- Pending capture-group state while matching. -/
structure GState where
  gs : Option Nat
  ge : Option Nat
deriving DecidableEq

/-- Length of the maximal prefix of `s` avoiding the character `c`
(the most a greedy `[^c]+` / `[^c]*` can consume). -/
def maxRun (c : Char) : List Char → Nat
  | [] => 0
  | d :: ds => if d = c then 0 else maxRun c ds + 1

/-- `n, n-1, ..., 1`: candidate consumption counts for a greedy `[^c]+`,
longest first (Python's backtracking order). -/
def countFrom : Nat → List Nat
  | 0 => []
  | n + 1 => (n + 1) :: countFrom n

/-- First success of `f` over a list of candidates, in order. -/
def firstSome {α β : Type} (f : α → Option β) : List α → Option β
  | [] => none
  | a :: as =>
    match f a with
    | some b => some b
    | none => firstSome f as

/-- Backtracking matcher with Python's priority order: a successful result is
the number of characters consumed from `s` (offset `pos` already consumed) and
the recorded group bounds.  Greedy quantifiers try the longest consumption
first; the first success in this order is returned, as in CPython's `re`. -/
def matchToks : List Tok → List Char → Nat → GState → Option (Nat × GState)
  | [], _, pos, g => some (pos, g)
  | Tok.lit l :: ts, s, pos, g =>
    if l.isPrefixOf s then matchToks ts (s.drop l.length) (pos + l.length) g else none
  | Tok.openG :: ts, s, pos, g => matchToks ts s pos { g with gs := some pos }
  | Tok.closeG :: ts, s, pos, g => matchToks ts s pos { g with ge := some pos }
  | Tok.plusNot c :: ts, s, pos, g =>
    firstSome (fun k => matchToks ts (s.drop k) (pos + k) g) (countFrom (maxRun c s))
  | Tok.starNot c :: ts, s, pos, g =>
    firstSome (fun k => matchToks ts (s.drop k) (pos + k) g) (countFrom (maxRun c s) ++ [0])

/-- One `re` match: span `[start, stop)` of the whole match and span
`[g1s, g1e)` of capture group 1, as indices into the subject string. -/
structure RMatch where
  start : Nat
  stop : Nat
  g1s : Nat
  g1e : Nat
deriving DecidableEq

/-- `re.finditer`: scan start positions left to right from `i`, emit each
match and resume at its end (non-overlapping; a zero-width match advances by
one).  `fuel` bounds the number of scan steps; `s.length + 1` always
suffices since every step advances the position. -/
def findIterFrom (toks : List Tok) (s : List Char) : Nat → Nat → List RMatch
  | _, 0 => []
  | i, fuel + 1 =>
    if i > s.length then []
    else
      match matchToks toks (s.drop i) 0 ⟨none, none⟩ with
      | some (len, g) =>
        ⟨i, i + len, i + g.gs.getD 0, i + g.ge.getD 0⟩ ::
          findIterFrom toks s (if len = 0 then i + 1 else i + len) fuel
      | none => findIterFrom toks s (i + 1) fuel

def findIter (toks : List Tok) (s : List Char) : List RMatch :=
  findIterFrom toks s 0 (s.length + 1)

/-- `s[a:b]` on character lists. -/
def strSlice (s : List Char) (a b : Nat) : List Char := (s.drop a).take (b - a)

/-- Python `str.lstrip('/')`: drop every leading `'/'`. -/
def lstripSlash : List Char → List Char
  | '/' :: rest => lstripSlash rest
  | s => s

/-- Python `str.startswith` on the underlying characters. -/
def strStartsWith (s p : String) : Bool := p.data.isPrefixOf s.data

/-- Python `str.endswith` on the underlying characters. -/
def strEndsWith (s p : String) : Bool := p.data.isSuffixOf s.data

/-- `posixpath.join` for two components, as used by the script. -/
def pathJoin (a b : String) : String :=
  if strStartsWith b "/" then b
  else if a = "" then b
  else if strEndsWith a "/" then a ++ b
  else a ++ "/" ++ b

/-- UTF-8 bytes of one character (`str.encode('utf-8')`, per scalar value). -/
def utf8EncodeChar (c : Char) : List Byte :=
  let n := c.toNat
  if n < 0x80 then [n]
  else if n < 0x800 then [0xC0 + n / 64, 0x80 + n % 64]
  else if n < 0x10000 then [0xE0 + n / 4096, 0x80 + n / 64 % 64, 0x80 + n % 64]
  else [0xF0 + n / 262144, 0x80 + n / 4096 % 64, 0x80 + n / 64 % 64, 0x80 + n % 64]

/-- UTF-8 bytes of a character list (`str.encode('utf-8')`). -/
def utf8Encode (s : List Char) : List Byte := (s.map utf8EncodeChar).flatten

/-- Valid second byte of a multi-byte sequence given its leading byte:
rejects overlong forms, surrogates and code points above U+10FFFF exactly as
CPython's strict `bytes.decode('utf-8')` does. -/
def utf8Cont2OK (b b1 : Byte) : Bool :=
  if b = 0xE0 then decide (0xA0 ≤ b1 ∧ b1 < 0xC0)
  else if b = 0xED then decide (0x80 ≤ b1 ∧ b1 < 0xA0)
  else if b = 0xF0 then decide (0x90 ≤ b1 ∧ b1 < 0xC0)
  else if b = 0xF4 then decide (0x80 ≤ b1 ∧ b1 < 0x90)
  else decide (0x80 ≤ b1 ∧ b1 < 0xC0)

/-- Plain continuation byte. -/
def utf8ContOK (b1 : Byte) : Bool := decide (0x80 ≤ b1 ∧ b1 < 0xC0)

/-- Strict UTF-8 decoding (`bytes.decode('utf-8')`): `none` on any invalid,
overlong, surrogate or truncated sequence. -/
def utf8Decode : List Byte → Option (List Char)
  | [] => some []
  | b :: rest =>
    if b < 0x80 then
      (utf8Decode rest).map (fun cs => Char.ofNat b :: cs)
    else if b < 0xC2 then none
    else if b < 0xE0 then
      match rest with
      | b1 :: rest1 =>
        if utf8ContOK b1 then
          (utf8Decode rest1).map (fun cs => Char.ofNat ((b - 0xC0) * 64 + (b1 - 0x80)) :: cs)
        else none
      | [] => none
    else if b < 0xF0 then
      match rest with
      | b1 :: b2 :: rest2 =>
        if utf8Cont2OK b b1 && utf8ContOK b2 then
          (utf8Decode rest2).map
            (fun cs => Char.ofNat ((b - 0xE0) * 4096 + (b1 - 0x80) * 64 + (b2 - 0x80)) :: cs)
        else none
      | _ => none
    else if b < 0xF5 then
      match rest with
      | b1 :: b2 :: b3 :: rest3 =>
        if utf8Cont2OK b b1 && utf8ContOK b2 && utf8ContOK b3 then
          (utf8Decode rest3).map
            (fun cs =>
              Char.ofNat ((b - 0xF0) * 262144 + (b1 - 0x80) * 4096 + (b2 - 0x80) * 64
                + (b3 - 0x80)) :: cs)
        else none
      | _ => none
    else none

/-- Python `str.replace` worker for a non-empty pattern: replace every
non-overlapping occurrence, scanning left to right.  `fuel ≥ s.length`
suffices since every step consumes at least one character. -/
def replaceAllGo (pat repl : List Char) : Nat → List Char → List Char
  | 0, s => s
  | _ + 1, [] => []
  | fuel + 1, c :: rest =>
    if pat.isPrefixOf (c :: rest) then
      repl ++ replaceAllGo pat repl fuel ((c :: rest).drop pat.length)
    else
      c :: replaceAllGo pat repl fuel rest

/-- Python `str.replace(pat, repl)` (all occurrences).  An empty pattern
matches between all characters, as in Python. -/
def replaceAll (s pat repl : List Char) : List Char :=
  match pat with
  | [] => repl ++ (s.map (fun c => c :: repl)).flatten
  | _ :: _ => replaceAllGo pat repl s.length s

/-- Python `str.index` / `bytes.index`: index of the first occurrence of
`pat` in `s`, `none` when absent (where Python raises `ValueError`). -/
def firstIndexOf {α : Type} [BEq α] : List α → List α → Option Nat
  | [], pat => if pat.isPrefixOf ([] : List α) then some 0 else none
  | a :: s, pat =>
    if pat.isPrefixOf (a :: s) then some 0
    else (firstIndexOf s pat).map (· + 1)

/-- All indices `i ≤ s.length` at which `pat` occurs in `s` (ascending). -/
def occurrencesOf {α : Type} [BEq α] : List α → List α → List Nat
  | [], pat => if pat.isPrefixOf ([] : List α) then [0] else []
  | a :: s, pat =>
    let rest := (occurrencesOf s pat).map (· + 1)
    if pat.isPrefixOf (a :: s) then 0 :: rest else rest

/-- Token form of `r'<link[^>]+href="(/assets/[^"]+\.css)"[^>]*>'`. -/
def cssToks : List Tok :=
  [Tok.lit "<link".data, Tok.plusNot '>', Tok.lit "href=\"".data,
   Tok.openG, Tok.lit "/assets/".data, Tok.plusNot '"', Tok.lit ".css".data, Tok.closeG,
   Tok.lit "\"".data, Tok.starNot '>', Tok.lit ">".data]

/-- Token form of `r'<script[^>]+src="(/assets/[^"]+\.js)"[^>]*></script>'`. -/
def jsToks : List Tok :=
  [Tok.lit "<script".data, Tok.plusNot '>', Tok.lit "src=\"".data,
   Tok.openG, Tok.lit "/assets/".data, Tok.plusNot '"', Tok.lit ".js".data, Tok.closeG,
   Tok.lit "\"".data, Tok.starNot '>', Tok.lit "></script>".data]

/-- `dist = os.path.join(os.path.dirname(__file__), 'dist')`;
`sd` stands for the script's directory. -/
def dist (sd : String) : String := pathJoin sd "dist"

/-- `html_path = os.path.join(dist, 'index.html')`. -/
def html_path (sd : String) : String := pathJoin (dist sd) "index.html"

/-- `css_file = os.path.join(dist, css_href.lstrip('/'))`. -/
def css_file (sd : String) (href : List Char) : String :=
  pathJoin (dist sd) (String.mk (lstripSlash href))

/-- `js_file = os.path.join(dist, js_href.lstrip('/'))`. -/
def js_file (sd : String) (href : List Char) : String :=
  pathJoin (dist sd) (String.mk (lstripSlash href))

/-- `out_path = os.path.join(os.path.dirname(__file__), '..', 'fortuna-engine-v9.1.html')`. -/
def out_path (sd : String) : String :=
  pathJoin (pathJoin sd "..") "fortuna-engine-v9.1.html"

/-- `out_path2 = '/mnt/user-data/outputs/fortuna-engine-v9.1.html'`. -/
def out_path2 : String := "/mnt/user-data/outputs/fortuna-engine-v9.1.html"

def styleTagOpen : List Char := "<style>".data
def styleTagClose : List Char := "</style>".data

/-- `tag_open = b'<script type="module">'`. -/
def scriptTagOpen : List Byte := utf8Encode "<script type=\"module\">".data

/-- `tag_close = b'</script>'`. -/
def scriptTagClose : List Byte := utf8Encode "</script>".data

/-- Uncaught Python exceptions of the script, by raising site. -/
inductive PyError where
  | fileNotFound : String → PyError
  | unicodeDecodeError : String → PyError
  | oserrorWrite : String → PyError
  | valueError : PyError
deriving DecidableEq

/-- Console lines the script can print. -/
inductive ConsoleLine where
  | standaloneReport : Nat → String → ConsoleLine
  | errNoJs : ConsoleLine
deriving DecidableEq

/-- Observable outcome of a run: successful file writes in order, and
console lines printed. -/
structure RunState where
  writes : List (String × List Byte)
  console : List ConsoleLine
deriving DecidableEq

/-- Body of the CSS loop for one match `m` of `cssToks` over the original
document `html0`, acting on the current document `html`: skip silently when
the target is missing, abort on a decode error, otherwise replace every
occurrence of the matched tag text by the inline style block. -/
def cssInline (fs : FS) (sd : String) (html0 : List Char) (html : List Char) (m : RMatch) :
    Except PyError (List Char) :=
  match FS.read fs (css_file sd (strSlice html0 m.g1s m.g1e)) with
  | none => Except.ok html
  | some cbs =>
    match utf8Decode cbs with
    | none => Except.error (PyError.unicodeDecodeError (css_file sd (strSlice html0 m.g1s m.g1e)))
    | some css =>
      Except.ok (replaceAll html (strSlice html0 m.start m.stop)
        (styleTagOpen ++ css ++ styleTagClose))

/-- The CSS loop: `re.finditer` over the original document, folding the body
over the evolving document. -/
def cssStep (fs : FS) (sd : String) (html0 : List Char) : Except PyError (List Char) :=
  (findIter cssToks html0).foldlM (cssInline fs sd html0) html0

/-- `for p in [out_path, out_path2]: open(p, 'wb').write(result)`: successful
writes in order; stops with an `OSError` at the first unwritable path. -/
def writeLoop (w : String → Bool) (data : List Byte) :
    List String → List (String × List Byte) × Option PyError
  | [] => ([], none)
  | p :: ps =>
    if w p then
      match writeLoop w data ps with
      | (ws, e) => ((p, data) :: ws, e)
    else ([], some (PyError.oserrorWrite p))

/-- The JS loop over the matches of `jsToks` in the (CSS-inlined) document:
skip matches whose target file is missing; at the first existing target,
splice the raw file bytes between the UTF-8 bytes before and after the first
occurrence of the matched tag text, write to both destinations, report the
size and stop.  If the loop finishes without a break, print the error line
(the `for`/`else`).  The reported size is the length of the bytes just
written to `out_path2` (`os.path.getsize(out_path2)`). -/
def jsLoop (fs : FS) (w : String → Bool) (sd : String) (html : List Char) :
    List RMatch → RunState × Option PyError
  | [] => ({ writes := [], console := [ConsoleLine.errNoJs] }, none)
  | m :: ms =>
    match FS.read fs (js_file sd (strSlice html m.g1s m.g1e)) with
    | none => jsLoop fs w sd html ms
    | some jsBytes =>
      match firstIndexOf html (strSlice html m.start m.stop) with
      | none => ({ writes := [], console := [] }, some PyError.valueError)
      | some i =>
        let result := utf8Encode (html.take i) ++ scriptTagOpen ++ jsBytes ++ scriptTagClose
          ++ utf8Encode (html.drop (i + (strSlice html m.start m.stop).length))
        match writeLoop w result [out_path sd, out_path2] with
        | (ws, some e) => ({ writes := ws, console := [] }, some e)
        | (ws, none) =>
          ({ writes := ws,
             console := [ConsoleLine.standaloneReport result.length out_path2] }, none)

def jsStep (fs : FS) (w : String → Bool) (sd : String) (html : List Char) :
    RunState × Option PyError :=
  jsLoop fs w sd html (findIter jsToks html)

/-- The whole script: load and decode the entry HTML, run the CSS loop, then
the JS loop.  Uncaught exceptions surface in the second component; nothing is
written and nothing printed before they are raised. -/
def buildStandalone (fs : FS) (w : String → Bool) (sd : String) : RunState × Option PyError :=
  match FS.read fs (html_path sd) with
  | none => ({ writes := [], console := [] }, some (PyError.fileNotFound (html_path sd)))
  | some bs =>
    match utf8Decode bs with
    | none => ({ writes := [], console := [] }, some (PyError.unicodeDecodeError (html_path sd)))
    | some html0 =>
      match cssStep fs sd html0 with
      | Except.error e => ({ writes := [], console := [] }, some e)
      | Except.ok html1 => jsStep fs w sd html1

/-- The output bytes when the tag of match `m` is spliced out of `html` and
the raw bytes `jsBytes` are inlined in its place. -/
def spliceBytes (html : List Char) (m : RMatch) (jsBytes : List Byte) : List Byte :=
  utf8Encode (html.take m.start) ++ scriptTagOpen ++ jsBytes ++ scriptTagClose
    ++ utf8Encode (html.drop (m.start + (strSlice html m.start m.stop).length))

example :
    findIter jsToks "<script type=\"module\" src=\"/assets/app.js\"></script>".data
      = [⟨0, 52, 27, 41⟩] := by decide

example :
    findIter cssToks "<link rel=\"stylesheet\" href=\"/assets/app.css\">".data
      = [⟨0, 46, 29, 44⟩] := by decide

example : utf8Decode [72, 105] = some ['H', 'i'] := by decide
example : utf8Decode [0xFF] = none := by decide
example : utf8Decode [0xC3, 0xA9] = some ['é'] := rfl
example : pathJoin "src" "dist" = "src/dist" := by decide
example : replaceAll "abXcdXe".data "X".data "YY".data = "abYYcdYYe".data := by decide

/-! ### Helper lemmas about occurrences, replacement and the loops -/

lemma isPrefixOf_nil_iff {α : Type} [BEq α] (pat : List α) :
    pat.isPrefixOf ([] : List α) = true ↔ pat = [] := by
  cases pat <;> simp [List.isPrefixOf]

lemma take_isPrefixOf_self (l : List Char) (n : Nat) : (l.take n).isPrefixOf l = true := by
  induction l generalizing n with
  | nil => cases n <;> simp [List.isPrefixOf]
  | cons a as ih =>
    cases n with
    | zero => simp [List.isPrefixOf]
    | succ n => simpa [List.isPrefixOf] using ih n

lemma mem_occurrencesOf {α : Type} [BEq α] (pat : List α) :
    ∀ (s : List α) (i : Nat),
      i ∈ occurrencesOf s pat ↔ pat.isPrefixOf (s.drop i) = true ∧ i ≤ s.length := by
  intro s
  induction s with
  | nil =>
    intro i
    by_cases h : pat.isPrefixOf ([] : List α) = true
    · simp only [occurrencesOf, if_pos h, List.drop_nil, List.length_nil]
      constructor
      · intro hi
        simp only [List.mem_singleton] at hi
        exact ⟨h, hi ▸ Nat.le_refl 0⟩
      · intro ⟨_, hi⟩
        simp [Nat.le_zero.mp hi]
    · simp only [occurrencesOf, if_neg h, List.drop_nil, List.length_nil]
      constructor
      · intro hi; cases hi
      · intro ⟨hp, _⟩; exact absurd hp h
  | cons a s ih =>
    intro i
    cases i with
    | zero =>
      by_cases h : pat.isPrefixOf (a :: s) = true
      · simp [occurrencesOf, if_pos h, h]
      · simp [occurrencesOf, if_neg h, h]
    | succ i =>
      have hdrop : (a :: s).drop (i + 1) = s.drop i := rfl
      by_cases h : pat.isPrefixOf (a :: s) = true <;>
        simp [occurrencesOf, h, hdrop, List.mem_map, ih i, Nat.succ_le_succ_iff]

lemma firstIndexOf_of_single {α : Type} [BEq α] (pat : List α) :
    ∀ (s : List α) (k : Nat), occurrencesOf s pat = [k] → firstIndexOf s pat = some k := by
  intro s
  induction s with
  | nil =>
    intro k hk
    by_cases h : pat.isPrefixOf ([] : List α) = true
    · simp only [occurrencesOf, if_pos h] at hk
      have : k = 0 := by simpa using (List.cons.injEq 0 [] k []).mp hk |>.1.symm
      simp [firstIndexOf, h, this]
    · simp [occurrencesOf, if_neg h] at hk
  | cons a s ih =>
    intro k hk
    by_cases h : pat.isPrefixOf (a :: s) = true
    · simp only [occurrencesOf, if_pos h] at hk
      have hk0 : k = 0 := by
        have := (List.cons.injEq 0 ((occurrencesOf s pat).map (· + 1)) k []).mp hk
        exact this.1.symm
      simp [firstIndexOf, h, hk0]
    · simp only [occurrencesOf, if_neg h] at hk
      cases hos : occurrencesOf s pat with
      | nil => rw [hos] at hk; simp at hk
      | cons j t =>
        rw [hos] at hk
        simp only [List.map_cons, List.cons.injEq, List.map_eq_nil_iff] at hk
        obtain ⟨hj, ht⟩ := hk
        have : occurrencesOf s pat = [j] := by rw [hos, ht]
        have := ih j this
        simp [firstIndexOf, h, this, hj]

lemma replaceAllGo_id (pat repl : List Char) :
    ∀ (s : List Char) (f : Nat), s.length ≤ f →
      (∀ i, pat.isPrefixOf (s.drop i) = false) → replaceAllGo pat repl f s = s := by
  intro s
  induction s with
  | nil => intro f _ _; cases f <;> rfl
  | cons c rest ih =>
    intro f hf h
    cases f with
    | zero => simp at hf
    | succ f =>
      have h0 : pat.isPrefixOf (c :: rest) = false := h 0
      simp only [replaceAllGo, h0, Bool.false_eq_true, if_false, List.cons.injEq, true_and]
      exact ih f (Nat.le_of_succ_le_succ hf) (fun i => h (i + 1))

lemma replaceAllGo_single (p : Char) (pt repl : List Char) :
    ∀ (s : List Char) (k f : Nat), s.length ≤ f →
      (p :: pt).isPrefixOf (s.drop k) = true →
      (∀ i, (p :: pt).isPrefixOf (s.drop i) = true → i = k) →
      replaceAllGo (p :: pt) repl f s
        = s.take k ++ repl ++ s.drop (k + (p :: pt).length) := by
  intro s
  induction s with
  | nil =>
    intro k f _ hocc _
    rw [List.drop_nil] at hocc
    simp [List.isPrefixOf] at hocc
  | cons c rest ih =>
    intro k f hf hocc huniq
    cases f with
    | zero => simp at hf
    | succ f =>
      cases k with
      | zero =>
        rw [List.drop_zero] at hocc
        simp only [replaceAllGo, hocc, if_true]
        have hdd : ∀ i, (p :: pt).isPrefixOf (((c :: rest).drop (p :: pt).length).drop i)
            = false := by
          intro i
          by_cases hb : (p :: pt).isPrefixOf (((c :: rest).drop (p :: pt).length).drop i) = true
          · rw [List.drop_drop] at hb
            have := huniq _ hb
            simp only [List.length_cons] at this
            omega
          · exact Bool.not_eq_true _ ▸ eq_false_of_ne_true hb
        have hlen : ((c :: rest).drop (p :: pt).length).length ≤ f := by
          simp only [List.length_cons] at hf
          simp only [List.length_drop, List.length_cons]
          omega
        rw [replaceAllGo_id (p :: pt) repl _ f hlen hdd]
        simp
      | succ k =>
        have h0 : (p :: pt).isPrefixOf (c :: rest) = false := by
          by_cases hb : (p :: pt).isPrefixOf (c :: rest) = true
          · have := huniq 0 (by rw [List.drop_zero]; exact hb)
            omega
          · exact Bool.not_eq_true _ ▸ eq_false_of_ne_true hb
        simp only [replaceAllGo, h0, Bool.false_eq_true, if_false]
        have := ih k f (Nat.le_of_succ_le_succ hf)
          (by rw [List.drop_succ_cons] at hocc; exact hocc)
          (fun i hi => by
            have := huniq (i + 1) (by rw [List.drop_succ_cons]; exact hi)
            omega)
        rw [this, List.take_succ_cons,
          show k + 1 + (p :: pt).length = (k + (p :: pt).length) + 1 from by omega,
          List.drop_succ_cons]
        simp

lemma replaceAll_single (s pat repl : List Char) (k : Nat)
    (h : occurrencesOf s pat = [k]) :
    replaceAll s pat repl = s.take k ++ repl ++ s.drop (k + pat.length) := by
  cases pat with
  | nil =>
    have h0 : (0 : Nat) ∈ occurrencesOf s ([] : List Char) :=
      (mem_occurrencesOf _ s 0).mpr ⟨by simp [List.isPrefixOf], Nat.zero_le _⟩
    have hlen : s.length ∈ occurrencesOf s ([] : List Char) :=
      (mem_occurrencesOf _ s s.length).mpr
        ⟨by simp [List.drop_length, List.isPrefixOf], Nat.le_refl _⟩
    rw [h] at h0 hlen
    simp only [List.mem_singleton] at h0 hlen
    have hs : s = [] := List.length_eq_zero.mp (by omega)
    subst hs
    simp [replaceAll, ← h0]
  | cons p pt =>
    have hocc : (p :: pt).isPrefixOf (s.drop k) = true ∧ k ≤ s.length :=
      (mem_occurrencesOf _ s k).mp (by rw [h]; exact List.mem_singleton.mpr rfl)
    have huniq : ∀ i, (p :: pt).isPrefixOf (s.drop i) = true → i = k := by
      intro i hi
      by_cases hil : i ≤ s.length
      · have := (mem_occurrencesOf _ s i).mpr ⟨hi, hil⟩
        rw [h] at this
        exact List.mem_singleton.mp this
      · exfalso
        rw [List.drop_eq_nil_of_le (by omega)] at hi
        simp [List.isPrefixOf] at hi
    exact replaceAllGo_single p pt repl s k s.length (Nat.le_refl _) hocc.1 huniq

lemma writeLoop_pair (w : String → Bool) (data : List Byte) (p q : String) :
    writeLoop w data [p, q] =
      if w p then
        if w q then ([(p, data), (q, data)], none)
        else ([(p, data)], some (PyError.oserrorWrite q))
      else ([], some (PyError.oserrorWrite p)) := by
  cases hp : w p <;> cases hq : w q <;> simp [writeLoop, hp, hq]

lemma jsLoop_cons_missing (fs : FS) (w : String → Bool) (sd : String) (html : List Char)
    (m : RMatch) (ms : List RMatch)
    (h : FS.read fs (js_file sd (strSlice html m.g1s m.g1e)) = none) :
    jsLoop fs w sd html (m :: ms) = jsLoop fs w sd html ms := by
  simp [jsLoop, h]

lemma jsLoop_skip_missing (fs : FS) (w : String → Bool) (sd : String) (html : List Char)
    (ms : List RMatch) :
    ∀ ms1 : List RMatch,
      (∀ m' ∈ ms1, FS.read fs (js_file sd (strSlice html m'.g1s m'.g1e)) = none) →
      jsLoop fs w sd html (ms1 ++ ms) = jsLoop fs w sd html ms := by
  intro ms1
  induction ms1 with
  | nil => intro _; rfl
  | cons m ms1 ih =>
    intro h
    rw [List.cons_append, jsLoop_cons_missing fs w sd html m _ (h m (List.mem_cons_self m ms1))]
    exact ih (fun m' hm' => h m' (List.mem_cons_of_mem m hm'))

lemma jsLoop_all_missing (fs : FS) (w : String → Bool) (sd : String) (html : List Char)
    (ms : List RMatch)
    (h : ∀ m' ∈ ms, FS.read fs (js_file sd (strSlice html m'.g1s m'.g1e)) = none) :
    jsLoop fs w sd html ms = ({ writes := [], console := [ConsoleLine.errNoJs] }, none) := by
  have := jsLoop_skip_missing fs w sd html [] ms h
  rw [List.append_nil] at this
  rw [this]
  rfl

lemma jsLoop_cons_found (fs : FS) (w : String → Bool) (sd : String) (html : List Char)
    (m : RMatch) (ms : List RMatch) (jsBytes : List Byte)
    (hfile : FS.read fs (js_file sd (strSlice html m.g1s m.g1e)) = some jsBytes)
    (hidx : firstIndexOf html (strSlice html m.start m.stop) = some m.start) :
    jsLoop fs w sd html (m :: ms) =
      match writeLoop w (spliceBytes html m jsBytes) [out_path sd, out_path2] with
      | (ws, some e) => ({ writes := ws, console := [] }, some e)
      | (ws, none) =>
        ({ writes := ws,
           console := [ConsoleLine.standaloneReport (spliceBytes html m jsBytes).length
             out_path2] }, none) := by
  simp only [jsLoop, hfile, hidx, spliceBytes]

lemma jsLoop_success_shape (fs : FS) (w : String → Bool) (sd : String) (html : List Char) :
    ∀ (ms : List RMatch) (st : RunState) (n : Nat) (pth : String),
      jsLoop fs w sd html ms = (st, none) →
      st.console = [ConsoleLine.standaloneReport n pth] →
      ∃ out, st.writes = [(out_path sd, out), (out_path2, out)]
        ∧ n = out.length ∧ pth = out_path2 := by
  intro ms
  induction ms with
  | nil =>
    intro st n pth h hc
    simp only [jsLoop, Prod.mk.injEq] at h
    rw [← h.1] at hc
    simp at hc
  | cons m ms ih =>
    intro st n pth h hc
    cases hr : FS.read fs (js_file sd (strSlice html m.g1s m.g1e)) with
    | none =>
      rw [jsLoop_cons_missing fs w sd html m ms hr] at h
      exact ih st n pth h hc
    | some jsBytes =>
      cases hidx : firstIndexOf html (strSlice html m.start m.stop) with
      | none => simp [jsLoop, hr, hidx] at h
      | some i =>
        simp only [jsLoop, hr, hidx] at h
        cases hp : w (out_path sd) with
        | false => rw [writeLoop_pair, if_neg (by simp [hp])] at h; simp at h
        | true =>
          cases hq : w out_path2 with
          | false =>
            rw [writeLoop_pair, if_pos hp, if_neg (by simp [hq])] at h
            simp at h
          | true =>
            rw [writeLoop_pair, if_pos hp, if_pos hq] at h
            simp only [Prod.mk.injEq] at h
            rw [← h.1] at hc
            simp only [List.cons.injEq, ConsoleLine.standaloneReport.injEq, and_true] at hc
            refine ⟨_, ?_, hc.1.symm, hc.2.symm⟩
            rw [← h.1]

lemma cssFold_missing (fs : FS) (sd : String) (html0 : List Char) :
    ∀ (ms : List RMatch) (acc : List Char),
      (∀ m ∈ ms, FS.read fs (css_file sd (strSlice html0 m.g1s m.g1e)) = none) →
      List.foldlM (cssInline fs sd html0) acc ms = Except.ok acc := by
  intro ms
  induction ms with
  | nil => intro acc _; rfl
  | cons m ms ih =>
    intro acc h
    rw [List.foldlM_cons]
    have hstep : cssInline fs sd html0 acc m = Except.ok acc := by
      simp [cssInline, h m (List.mem_cons_self m ms)]
    rw [hstep]
    show List.foldlM (cssInline fs sd html0) acc ms = Except.ok acc
    exact ih acc (fun m' hm' => h m' (List.mem_cons_of_mem m hm'))

lemma cssFold_decodable (fs : FS) (sd : String) (html0 : List Char) :
    ∀ (ms : List RMatch) (acc : List Char),
      (∀ m ∈ ms, ∀ cbs, FS.read fs (css_file sd (strSlice html0 m.g1s m.g1e)) = some cbs →
        (utf8Decode cbs).isSome = true) →
      ∃ r, List.foldlM (cssInline fs sd html0) acc ms = Except.ok r := by
  intro ms
  induction ms with
  | nil => intro acc _; exact ⟨acc, rfl⟩
  | cons m ms ih =>
    intro acc h
    rw [List.foldlM_cons]
    cases hr : FS.read fs (css_file sd (strSlice html0 m.g1s m.g1e)) with
    | none =>
      have hstep : cssInline fs sd html0 acc m = Except.ok acc := by simp [cssInline, hr]
      rw [hstep]
      exact ih acc (fun m' hm' => h m' (List.mem_cons_of_mem m hm'))
    | some cbs =>
      obtain ⟨css, hcss⟩ := Option.isSome_iff_exists.mp
        (h m (List.mem_cons_self m ms) cbs hr)
      have hstep : cssInline fs sd html0 acc m
          = Except.ok (replaceAll acc (strSlice html0 m.start m.stop)
              (styleTagOpen ++ css ++ styleTagClose)) := by
        simp [cssInline, hr, hcss]
      rw [hstep]
      exact ih _ (fun m' hm' => h m' (List.mem_cons_of_mem m hm'))

/-! ### Claim theorems -/

/-- C1: for a document whose script stage contains exactly one script
reference — one match of the script pattern, whose matched tag text occurs in
the document only at the match — whose target file exists, with both
destinations writable, the output byte sequence equals the UTF-8 bytes of the
document before the tag, then the literal `<script type="module">`, then the
exact raw bytes of the target file (`jsBytes` is arbitrary, in particular it
need not be valid UTF-8), then `</script>`, then the UTF-8 bytes of the
document after the tag; the external tag occurrence itself is consumed by the
splice and replaced by the inline block (`spliceBytes` is literally that
five-part concatenation). -/
theorem c1_single_script_raw_byte_splice
    (fs : FS) (w : String → Bool) (sd : String) (html : List Char) (m : RMatch)
    (jsBytes : List Byte)
    (hm : findIter jsToks html = [m])
    (hocc : occurrencesOf html (strSlice html m.start m.stop) = [m.start])
    (hfile : FS.read fs (js_file sd (strSlice html m.g1s m.g1e)) = some jsBytes)
    (hw1 : w (out_path sd) = true) (hw2 : w out_path2 = true) :
    jsStep fs w sd html =
      ({ writes := [(out_path sd, spliceBytes html m jsBytes),
                    (out_path2, spliceBytes html m jsBytes)],
         console := [ConsoleLine.standaloneReport (spliceBytes html m jsBytes).length
           out_path2] }, none) := by
  unfold jsStep
  rw [hm, jsLoop_cons_found fs w sd html m [] jsBytes hfile
    (firstIndexOf_of_single _ html m.start hocc)]
  rw [writeLoop_pair, if_pos hw1, if_pos hw2]

theorem c1_witness :
    jsStep [("s/dist/assets/a.js", [255, 0])] (fun _ => true) "s"
        "<script a src=\"/assets/a.js\"></script>".data
      = ({ writes :=
            [(out_path "s",
              spliceBytes "<script a src=\"/assets/a.js\"></script>".data ⟨0, 38, 15, 27⟩
                [255, 0]),
             (out_path2,
              spliceBytes "<script a src=\"/assets/a.js\"></script>".data ⟨0, 38, 15, 27⟩
                [255, 0])],
           console := [ConsoleLine.standaloneReport
             (spliceBytes "<script a src=\"/assets/a.js\"></script>".data ⟨0, 38, 15, 27⟩
               [255, 0]).length out_path2] }, none) :=
  c1_single_script_raw_byte_splice _ _ _ _ _ _ (by decide) (by decide) (by decide) rfl rfl

/-- C2: a run that loads and decodes the entry HTML and passes the CSS stage,
but in which no script reference is found at all (the match list may be
empty) or every matched script reference's target file is missing, prints the
`ERROR: No JS file found to inline` diagnostic and writes nothing: neither
destination receives a file. -/
theorem c2_no_script_reports_and_writes_nothing
    (fs : FS) (w : String → Bool) (sd : String) (bs : List Byte)
    (html0 html1 : List Char)
    (hread : FS.read fs (html_path sd) = some bs)
    (hdec : utf8Decode bs = some html0)
    (hcss : cssStep fs sd html0 = Except.ok html1)
    (hmiss : ∀ m ∈ findIter jsToks html1,
      FS.read fs (js_file sd (strSlice html1 m.g1s m.g1e)) = none) :
    buildStandalone fs w sd
      = ({ writes := [], console := [ConsoleLine.errNoJs] }, none) := by
  simp only [buildStandalone, hread, hdec, hcss, jsStep]
  exact jsLoop_all_missing fs w sd html1 _ hmiss

theorem c2_witness :
    buildStandalone [("s/dist/index.html", utf8Encode "<p>hi</p>".data)] (fun _ => true) "s"
      = ({ writes := [], console := [ConsoleLine.errNoJs] }, none) :=
  c2_no_script_reports_and_writes_nothing _ _ _ (utf8Encode "<p>hi</p>".data)
    "<p>hi</p>".data "<p>hi</p>".data (by decide) (by decide) rfl (by decide)

/-- C3: for a document containing exactly one stylesheet link match — whose
matched tag text occurs only at the match — whose target file exists and
decodes as UTF-8 to `css`, the CSS stage succeeds and produces the document
with the matched tag replaced, in place, by `<style>` ++ css ++ `</style>`;
everything before and after the tag is untouched, so the original link tag no
longer appears at that position. -/
theorem c3_css_inline_replaces_tag
    (fs : FS) (sd : String) (html0 : List Char) (m : RMatch)
    (cssBytes : List Byte) (css : List Char)
    (hm : findIter cssToks html0 = [m])
    (hocc : occurrencesOf html0 (strSlice html0 m.start m.stop) = [m.start])
    (hfile : FS.read fs (css_file sd (strSlice html0 m.g1s m.g1e)) = some cssBytes)
    (hdec : utf8Decode cssBytes = some css) :
    cssStep fs sd html0 = Except.ok
      (html0.take m.start ++ styleTagOpen ++ css ++ styleTagClose
        ++ html0.drop (m.start + (strSlice html0 m.start m.stop).length)) := by
  unfold cssStep
  rw [hm, List.foldlM_cons,
    show cssInline fs sd html0 html0 m
        = Except.ok (replaceAll html0 (strSlice html0 m.start m.stop)
            (styleTagOpen ++ css ++ styleTagClose)) from by simp [cssInline, hfile, hdec],
    replaceAll_single html0 (strSlice html0 m.start m.stop)
      (styleTagOpen ++ css ++ styleTagClose) m.start hocc]
  simp [List.append_assoc]

theorem c3_witness :
    cssStep [("s/dist/assets/a.css", utf8Encode "body{color:red}".data)] "s"
        "<link a href=\"/assets/a.css\">x".data
      = Except.ok "<style>body{color:red}</style>x".data := by
  rw [c3_css_inline_replaces_tag
    [("s/dist/assets/a.css", utf8Encode "body{color:red}".data)] "s"
    "<link a href=\"/assets/a.css\">x".data ⟨0, 29, 14, 27⟩
    (utf8Encode "body{color:red}".data) "body{color:red}".data
    (by decide) (by decide) (by decide) (by decide)]
  exact congrArg Except.ok (by decide)

/-- C5: when every stylesheet link match of the document has a missing target
file, the run does not fail: the CSS stage returns the document unchanged
(each such occurrence is left byte-identical to the input) and succeeds, so
processing continues to the script step. -/
theorem c5_missing_css_targets_leave_document_unchanged
    (fs : FS) (sd : String) (html0 : List Char)
    (hmiss : ∀ m ∈ findIter cssToks html0,
      FS.read fs (css_file sd (strSlice html0 m.g1s m.g1e)) = none) :
    cssStep fs sd html0 = Except.ok html0 :=
  cssFold_missing fs sd html0 _ html0 hmiss

theorem c5_witness :
    cssStep [] "s" "<link a href=\"/assets/a.css\">x".data
      = Except.ok "<link a href=\"/assets/a.css\">x".data :=
  c5_missing_css_targets_leave_document_unchanged [] "s"
    "<link a href=\"/assets/a.css\">x".data (by decide)

/-- C4 counterexample: a document with two script references where the first
reference's target file is missing and the second's exists.  The code skips
the first and inlines the *second*: in the output, the first tag is still
present as external text while the second tag's bytes are gone (replaced by
the inline block), contradicting the claim that only the first reference is
inlined and every subsequent one remains an external reference. -/
theorem c4_counterexample :
    jsStep [("s/dist/assets/b.js", [49])] (fun _ => true) "s"
        ("<script a src=\"/assets/a.js\"></script><script b src=\"/assets/b.js\"></script>".data)
      = ({ writes :=
            [(out_path "s",
              spliceBytes
                "<script a src=\"/assets/a.js\"></script><script b src=\"/assets/b.js\"></script>".data
                ⟨38, 76, 53, 65⟩ [49]),
             (out_path2,
              spliceBytes
                "<script a src=\"/assets/a.js\"></script><script b src=\"/assets/b.js\"></script>".data
                ⟨38, 76, 53, 65⟩ [49])],
           console := [ConsoleLine.standaloneReport
             (spliceBytes
               "<script a src=\"/assets/a.js\"></script><script b src=\"/assets/b.js\"></script>".data
               ⟨38, 76, 53, 65⟩ [49]).length out_path2] }, none)
    ∧ (firstIndexOf
        (spliceBytes
          "<script a src=\"/assets/a.js\"></script><script b src=\"/assets/b.js\"></script>".data
          ⟨38, 76, 53, 65⟩ [49])
        (utf8Encode "<script b src=\"/assets/b.js\"></script>".data)).isSome = false
    ∧ (firstIndexOf
        (spliceBytes
          "<script a src=\"/assets/a.js\"></script><script b src=\"/assets/b.js\"></script>".data
          ⟨38, 76, 53, 65⟩ [49])
        (utf8Encode "<script a src=\"/assets/a.js\"></script>".data)).isSome = true :=
  ⟨by decide, by decide, by decide⟩

/-- C4 amended: the reference that gets inlined is the *first script
reference whose target file exists* — every match before it has a missing
target, every match after it and all other document text is left as-is,
carried verbatim into the output around the single splice (and the spliced
tag's text occurs only at that match). -/
theorem c4_first_existing_script_is_inlined
    (fs : FS) (w : String → Bool) (sd : String) (html : List Char)
    (ms1 : List RMatch) (m : RMatch) (ms2 : List RMatch) (jsBytes : List Byte)
    (hm : findIter jsToks html = ms1 ++ m :: ms2)
    (hmiss : ∀ m' ∈ ms1, FS.read fs (js_file sd (strSlice html m'.g1s m'.g1e)) = none)
    (hfile : FS.read fs (js_file sd (strSlice html m.g1s m.g1e)) = some jsBytes)
    (hocc : occurrencesOf html (strSlice html m.start m.stop) = [m.start])
    (hw1 : w (out_path sd) = true) (hw2 : w out_path2 = true) :
    jsStep fs w sd html =
      ({ writes := [(out_path sd, spliceBytes html m jsBytes),
                    (out_path2, spliceBytes html m jsBytes)],
         console := [ConsoleLine.standaloneReport (spliceBytes html m jsBytes).length
           out_path2] }, none) := by
  unfold jsStep
  rw [hm, jsLoop_skip_missing fs w sd html _ ms1 hmiss,
    jsLoop_cons_found fs w sd html m ms2 jsBytes hfile
      (firstIndexOf_of_single _ html m.start hocc)]
  rw [writeLoop_pair, if_pos hw1, if_pos hw2]

theorem c4_witness :
    jsStep [("s/dist/assets/b.js", [49])] (fun _ => true) "s"
        ("<script a src=\"/assets/a.js\"></script><script b src=\"/assets/b.js\"></script>".data)
      = ({ writes :=
            [(out_path "s",
              spliceBytes
                "<script a src=\"/assets/a.js\"></script><script b src=\"/assets/b.js\"></script>".data
                ⟨38, 76, 53, 65⟩ [49]),
             (out_path2,
              spliceBytes
                "<script a src=\"/assets/a.js\"></script><script b src=\"/assets/b.js\"></script>".data
                ⟨38, 76, 53, 65⟩ [49])],
           console := [ConsoleLine.standaloneReport
             (spliceBytes
               "<script a src=\"/assets/a.js\"></script><script b src=\"/assets/b.js\"></script>".data
               ⟨38, 76, 53, 65⟩ [49]).length out_path2] }, none) :=
  c4_first_existing_script_is_inlined _ _ _ _ [⟨0, 38, 15, 27⟩] ⟨38, 76, 53, 65⟩ [] [49]
    (by decide) (by decide) (by decide) (by decide) rfl rfl

/-- C6 counterexample: a run where the single stylesheet's file content is
itself the text of the matched link tag.  The CSS stage replaces the tag with
an inline style block that *contains* the link-tag text again, so the
document state handed to the script-inlining step still contains a matched
stylesheet link tag whose target file exists — refuting the claimed
invariant that this state contains no such tag. -/
theorem c6_counterexample :
    cssStep [("s/dist/assets/a.css", utf8Encode "<link x href=\"/assets/a.css\">".data)] "s"
        "<link x href=\"/assets/a.css\">".data
      = Except.ok "<style><link x href=\"/assets/a.css\"></style>".data
    ∧ ((findIter cssToks "<style><link x href=\"/assets/a.css\"></style>".data).any
        (fun m =>
          (FS.read [("s/dist/assets/a.css", utf8Encode "<link x href=\"/assets/a.css\">".data)]
            (css_file "s"
              (strSlice "<style><link x href=\"/assets/a.css\"></style>".data m.g1s
                m.g1e))).isSome)) = true :=
  ⟨rfl, by decide⟩

/-- C6 amended: the sequencing half of the invariant holds — the whole CSS
stage (every stylesheet replacement the run performs) happens before the
script-inlining step re-serializes the document: the run is exactly the
script step applied to the CSS stage's output.  The stronger state property
(that this output contains no matched stylesheet tag with existing target)
fails when inlined stylesheet content reintroduces such tag text, see the
counterexample. -/
theorem c6_script_step_operates_on_css_output
    (fs : FS) (w : String → Bool) (sd : String) (bs : List Byte)
    (html0 html1 : List Char)
    (hread : FS.read fs (html_path sd) = some bs)
    (hdec : utf8Decode bs = some html0)
    (hcss : cssStep fs sd html0 = Except.ok html1) :
    buildStandalone fs w sd = jsStep fs w sd html1 := by
  simp only [buildStandalone, hread, hdec, hcss]

theorem c6_witness :
    buildStandalone [("s/dist/index.html", utf8Encode "<p>hi</p>".data)] (fun _ => true) "s"
      = jsStep [("s/dist/index.html", utf8Encode "<p>hi</p>".data)] (fun _ => true) "s"
          "<p>hi</p>".data :=
  c6_script_step_operates_on_css_output _ _ _ (utf8Encode "<p>hi</p>".data)
    "<p>hi</p>".data "<p>hi</p>".data (by decide) (by decide) rfl

/-- C7: on every successful run — the run terminates without an error and its
console is the success line reporting `n` bytes at path `pth` — both fixed
destinations received byte-identical content (first the primary, a sibling of
the source directory's parent, then the secondary shared location), the
reported size `n` is the byte length of that content, and the reported path
is the secondary destination. -/
theorem c7_success_writes_identical_and_reports_size
    (fs : FS) (w : String → Bool) (sd : String) (st : RunState) (n : Nat) (pth : String)
    (h : buildStandalone fs w sd = (st, none))
    (hc : st.console = [ConsoleLine.standaloneReport n pth]) :
    ∃ out, st.writes = [(out_path sd, out), (out_path2, out)]
      ∧ n = out.length ∧ pth = out_path2 := by
  cases hr : FS.read fs (html_path sd) with
  | none => simp [buildStandalone, hr] at h
  | some bs =>
    cases hd : utf8Decode bs with
    | none => simp [buildStandalone, hr, hd] at h
    | some html0 =>
      cases hcs : cssStep fs sd html0 with
      | error e => simp [buildStandalone, hr, hd, hcs] at h
      | ok html1 =>
        simp only [buildStandalone, hr, hd, hcs] at h
        exact jsLoop_success_shape fs w sd html1 (findIter jsToks html1) st n pth h hc

theorem c7_witness :
    ∃ out,
      (buildStandalone
        [("s/dist/index.html", utf8Encode "<script a src=\"/assets/a.js\"></script>".data),
         ("s/dist/assets/a.js", [49])] (fun _ => true) "s").1.writes
          = [(out_path "s", out), (out_path2, out)]
        ∧ 32 = out.length ∧ out_path2 = out_path2 :=
  c7_success_writes_identical_and_reports_size
    [("s/dist/index.html", utf8Encode "<script a src=\"/assets/a.js\"></script>".data),
     ("s/dist/assets/a.js", [49])] (fun _ => true) "s"
    (buildStandalone
      [("s/dist/index.html", utf8Encode "<script a src=\"/assets/a.js\"></script>".data),
       ("s/dist/assets/a.js", [49])] (fun _ => true) "s").1 32 out_path2 rfl (by decide)

/-- C8: a run whose entry HTML file is missing, or whose entry file's bytes
do not decode as UTF-8, aborts before producing any output: nothing is
written, nothing is printed, and the failure is surfaced as the run's
terminal error — a file-not-found or a decode error at the entry path. -/
theorem c8_missing_or_undecodable_html_aborts
    (fs : FS) (w : String → Bool) (sd : String)
    (h : ∀ bs, FS.read fs (html_path sd) = some bs → utf8Decode bs = none) :
    ∃ e, buildStandalone fs w sd = ({ writes := [], console := [] }, some e)
      ∧ (e = PyError.fileNotFound (html_path sd)
         ∨ e = PyError.unicodeDecodeError (html_path sd)) := by
  cases hr : FS.read fs (html_path sd) with
  | none => exact ⟨_, by simp [buildStandalone, hr], Or.inl rfl⟩
  | some bs => exact ⟨_, by simp [buildStandalone, hr, h bs hr], Or.inr rfl⟩

theorem c8_witness :
    ∃ e, buildStandalone [] (fun _ => true) "s"
        = ({ writes := [], console := [] }, some e)
      ∧ (e = PyError.fileNotFound (html_path "s")
         ∨ e = PyError.unicodeDecodeError (html_path "s")) :=
  c8_missing_or_undecodable_html_aborts [] (fun _ => true) "s"
    (fun bs hb => by simp [FS.read] at hb)

/-- C9: when the run reaches the write stage (a script reference with an
existing target was found, after any with missing targets) and a destination
is not writable, the run terminates with the write error and does not claim
success: the console stays empty (no success line) — in particular, when the
primary destination was written but the secondary fails, the primary write
remains, the error names the secondary path, and still no success line is
printed. -/
theorem c9_write_failure_terminates_without_success
    (fs : FS) (w : String → Bool) (sd : String) (html : List Char)
    (ms1 : List RMatch) (m : RMatch) (ms2 : List RMatch) (jsBytes : List Byte)
    (hm : findIter jsToks html = ms1 ++ m :: ms2)
    (hmiss : ∀ m' ∈ ms1, FS.read fs (js_file sd (strSlice html m'.g1s m'.g1e)) = none)
    (hfile : FS.read fs (js_file sd (strSlice html m.g1s m.g1e)) = some jsBytes)
    (hocc : occurrencesOf html (strSlice html m.start m.stop) = [m.start])
    (hw : w (out_path sd) = false ∨ w out_path2 = false) :
    jsStep fs w sd html =
      ({ writes := if w (out_path sd) then [(out_path sd, spliceBytes html m jsBytes)] else [],
         console := [] },
       some (PyError.oserrorWrite (if w (out_path sd) then out_path2 else out_path sd))) := by
  unfold jsStep
  rw [hm, jsLoop_skip_missing fs w sd html _ ms1 hmiss,
    jsLoop_cons_found fs w sd html m ms2 jsBytes hfile
      (firstIndexOf_of_single _ html m.start hocc), writeLoop_pair]
  cases hp : w (out_path sd) with
  | false => simp [hp]
  | true =>
    cases hq : w out_path2 with
    | false => simp [hp, hq]
    | true => simp [hp, hq] at hw

theorem c9_witness :
    jsStep [("s/dist/assets/a.js", [49])] (fun p => decide (p = out_path "s")) "s"
        "<script a src=\"/assets/a.js\"></script>".data
      = ({ writes :=
            if (fun p => decide (p = out_path "s")) (out_path "s") then
              [(out_path "s",
                spliceBytes "<script a src=\"/assets/a.js\"></script>".data ⟨0, 38, 15, 27⟩
                  [49])]
            else [],
           console := [] },
         some (PyError.oserrorWrite
           (if (fun p => decide (p = out_path "s")) (out_path "s") then out_path2
            else out_path "s"))) :=
  c9_write_failure_terminates_without_success _ _ _ _ [] ⟨0, 38, 15, 27⟩ [] [49]
    (by decide) (by simp) (by decide) (by decide) (Or.inr (by decide))

/-- C10: an implicit precondition of the CSS stage — a matched stylesheet
whose target file exists must decode as UTF-8.  First half: if the first
stylesheet match's target exists but its bytes do not decode, the run aborts
with an uncaught decode error naming that file, before any output or console
line.  Second half: under the precondition that every matched stylesheet
target that exists is valid UTF-8, this error branch is unreachable and the
CSS stage succeeds. -/
theorem c10_css_decode_precondition
    (fs : FS) (w : String → Bool) (sd : String) (bs : List Byte) (html0 : List Char)
    (hread : FS.read fs (html_path sd) = some bs)
    (hdec : utf8Decode bs = some html0) :
    (∀ (m : RMatch) (ms : List RMatch) (cbs : List Byte),
      findIter cssToks html0 = m :: ms →
      FS.read fs (css_file sd (strSlice html0 m.g1s m.g1e)) = some cbs →
      utf8Decode cbs = none →
      buildStandalone fs w sd = ({ writes := [], console := [] },
        some (PyError.unicodeDecodeError (css_file sd (strSlice html0 m.g1s m.g1e)))))
    ∧ ((∀ m ∈ findIter cssToks html0, ∀ cbs,
        FS.read fs (css_file sd (strSlice html0 m.g1s m.g1e)) = some cbs →
        (utf8Decode cbs).isSome = true) →
      ∃ html1, cssStep fs sd html0 = Except.ok html1) := by
  constructor
  · intro m ms cbs hm hfile hcbs
    have hcss : cssStep fs sd html0 = Except.error
        (PyError.unicodeDecodeError (css_file sd (strSlice html0 m.g1s m.g1e))) := by
      unfold cssStep
      rw [hm, List.foldlM_cons,
        show cssInline fs sd html0 html0 m = Except.error
            (PyError.unicodeDecodeError (css_file sd (strSlice html0 m.g1s m.g1e)))
          from by simp [cssInline, hfile, hcbs]]
      rfl
    simp [buildStandalone, hread, hdec, hcss]
  · intro h
    exact cssFold_decodable fs sd html0 _ html0 h

theorem c10_witness :
    (∀ (m : RMatch) (ms : List RMatch) (cbs : List Byte),
      findIter cssToks "<link a href=\"/assets/a.css\">".data = m :: ms →
      FS.read
        [("s/dist/index.html", utf8Encode "<link a href=\"/assets/a.css\">".data),
         ("s/dist/assets/a.css", [255])]
        (css_file "s" (strSlice "<link a href=\"/assets/a.css\">".data m.g1s m.g1e))
          = some cbs →
      utf8Decode cbs = none →
      buildStandalone
        [("s/dist/index.html", utf8Encode "<link a href=\"/assets/a.css\">".data),
         ("s/dist/assets/a.css", [255])] (fun _ => true) "s"
        = ({ writes := [], console := [] },
          some (PyError.unicodeDecodeError
            (css_file "s" (strSlice "<link a href=\"/assets/a.css\">".data m.g1s m.g1e)))))
    ∧ ((∀ m ∈ findIter cssToks "<link a href=\"/assets/a.css\">".data, ∀ cbs,
        FS.read
          [("s/dist/index.html", utf8Encode "<link a href=\"/assets/a.css\">".data),
           ("s/dist/assets/a.css", [255])]
          (css_file "s" (strSlice "<link a href=\"/assets/a.css\">".data m.g1s m.g1e))
            = some cbs →
        (utf8Decode cbs).isSome = true) →
      ∃ html1, cssStep
        [("s/dist/index.html", utf8Encode "<link a href=\"/assets/a.css\">".data),
         ("s/dist/assets/a.css", [255])] "s" "<link a href=\"/assets/a.css\">".data
          = Except.ok html1) :=
  c10_css_decode_precondition _ _ "s" (utf8Encode "<link a href=\"/assets/a.css\">".data)
    "<link a href=\"/assets/a.css\">".data (by decide) (by decide)
